import Mathlib

/-!
Verification of the skilltrail-core repository.

Part I embeds the only executable source file, `infrastructure/infrastructure.go`
(the AWS CDK stack bootstrap), shallowly: the CDK construct tree is a list of
child resources, Go pointers are `Option`, a nil-pointer dereference is an
`Except.error`, and the process environment is a function from variable names
to values (Go's `os.Getenv` returns the empty string for unset variables).

Part II models the Live Challenge real-time coordination engine.  That
subsystem is described only in the repository's design documents (README /
design markdown); no Go implementation of it exists, so every definition in
Part II is modelled from the specification's words and marked as such.
-/

namespace SkillTrail

/-! ## Part I: the CDK infrastructure program (`infrastructure.go`) -/

/-- The `awscdk.Environment` record: account and region strings.  In the Go source the
fields are `*string` produced by `jsii.String`, always non-nil, so plain
strings suffice. -/
structure Environment where
  Account : String
  Region : String
  deriving Repr, DecidableEq

/-- The `awscdk.StackProps` record, reduced to the one field the program sets.  The Go
zero value has a nil `Env`, embedded as `none`. -/
structure StackProps where
  Env : Option Environment := none
  deriving Repr, DecidableEq

/-- Props type `SkillTrailCoreStackProps` wraps an embedded `awscdk.StackProps`. -/
structure SkillTrailCoreStackProps where
  StackProps : StackProps
  deriving Repr, DecidableEq

/-- A CDK construct scope, identified by its node path. -/
structure Construct where
  path : String
  deriving Repr, DecidableEq

/-- A child resource of a stack (e.g. the commented-out SQS queue would be
one).  Only its construct id matters for this embedding. -/
structure Resource where
  resourceId : String
  deriving Repr, DecidableEq

/-- The `awscdk.Stack` record: the scope and id it was created in, its props, and the
list of child resources added to it. -/
structure Stack where
  scope : Construct
  stackId : String
  props : StackProps
  resources : List Resource
  deriving Repr, DecidableEq

/-- Constructor `awscdk.NewStack`: creates a stack with no child resources. -/
def NewStack (scope : Construct) (id : String) (sprops : StackProps) : Stack :=
  { scope := scope, stackId := id, props := sprops, resources := [] }

/-- Reading through a Go pointer: dereferencing nil is a runtime panic,
embedded as `Except.error`. -/
def derefProps (props : Option SkillTrailCoreStackProps) :
    Except String SkillTrailCoreStackProps :=
  match props with
  | none => .error "runtime error: invalid memory address or nil pointer dereference"
  | some p => .ok p

/-- Function `NewSkillTrailCoreStack` from `infrastructure.go`:
`var sprops awscdk.StackProps` (zero value); `if props != nil { sprops =
props.StackProps }`; `stack := awscdk.NewStack(scope, &id, &sprops)`; the
example resource is commented out; `return stack`. -/
def NewSkillTrailCoreStack (scope : Construct) (id : String)
    (props : Option SkillTrailCoreStackProps) : Except String Stack := do
  let sprops : StackProps ←
    if props ≠ none then do
      let p ← derefProps props
      pure p.StackProps
    else
      pure {}
  let stack := NewStack scope id sprops
  -- The code that defines the stack's resources is absent (example commented out).
  pure stack

/-- Function `env()` from `infrastructure.go`: `Account` is `os.Getenv("CDK_DEFAULT_ACCOUNT")`,
`Region` is the literal `"eu-south-1"`.  The process environment is passed in
as a total function, as `os.Getenv` sees it. -/
def env (getenv : String → String) : Environment :=
  { Account := getenv "CDK_DEFAULT_ACCOUNT", Region := "eu-south-1" }

end SkillTrail

namespace LiveChallenge

/-!
## Part II: the Live Challenge coordination engine

The repository's design documents describe this subsystem (Session Registry,
Participant State Tracker, Time/Score Accumulator, Session Lifecycle
Controller) but ship no Go implementation of it, so every definition below is
modelled from the specification's words.  Machine time is an explicit `Nat`
parameter on each operation; concurrency is reduced to the interleaving of
whole operations on a single system state.
-/

/-- Session identifier. -/
abbrev SessionId := Nat

/-- User identifier. -/
abbrev UserId := Nat

/-- Modelled from the spec: session status `scheduled|active|completed|cancelled`. -/
inductive SessionStatus where
  | scheduled
  | active
  | completed
  | cancelled
  deriving Repr, DecidableEq

/-- Modelled from the spec: participant status `active|completed|abandoned`. -/
inductive ParticipantStatus where
  | active
  | completed
  | abandoned
  deriving Repr, DecidableEq

/-- Modelled from the spec: a tip, unlocked `availableAfterSeconds` after the
current challenge starts, costing `pointsDeduction` points when used. -/
structure Tip where
  availableAfterSeconds : Nat
  pointsDeduction : Nat
  deriving Repr, DecidableEq

/-- Modelled from the spec: challenge metadata the engine consumes
(`challengeId -> basePoints, timeLimit, tip definitions`). -/
structure Challenge where
  basePoints : Nat
  timeLimit : Nat
  tips : List Tip
  deriving Repr, DecidableEq

/-- Modelled from the spec: a `ChallengeCompletionRecord`, immutable once
created: challenge identity (its index in the session's sequence), completion
timestamp, score, time spent, tips used, attempts. -/
structure ChallengeCompletionRecord where
  challengeIndex : Nat
  completedAt : Nat
  score : Nat
  timeSpent : Nat
  tipsUsed : Nat
  attempts : Nat
  deriving Repr, DecidableEq

/-- Modelled from the spec: a session-scoped participant record: current
challenge index, cumulative score, cumulative time spent, status, history of
per-challenge completions, plus the in-flight per-challenge bookkeeping (when
the current challenge started, the tips taken on it, the attempts so far). -/
structure Participant where
  userId : UserId
  status : ParticipantStatus
  currentChallengeIndex : Nat
  totalScore : Nat
  timeSpent : Nat
  challengeStartedAt : Option Nat
  tipsTaken : List Tip
  attempts : Nat
  completions : List ChallengeCompletionRecord
  deriving Repr, DecidableEq

/-- Modelled from the spec: a `LiveChallengeSession`: identity, ordered
challenge sequence, cumulative time limit (sum of challenge time limits),
status, start timestamp, participant collection, capacity. -/
structure Session where
  sid : SessionId
  challenges : List Challenge
  maxParticipants : Nat
  totalTimeLimit : Nat
  status : SessionStatus
  startTime : Option Nat
  participants : List Participant
  deriving Repr, DecidableEq

/-- Modelled from the spec: the Session Registry's single global
active-session slot. -/
structure Registry where
  activeSlot : Option SessionId
  deriving Repr, DecidableEq

/-- The whole engine state: the registry and every known session. -/
structure SystemState where
  registry : Registry
  sessions : List Session
  deriving Repr, DecidableEq

/-- Modelled from the spec: the error taxonomy of the core, plus the internal
guard conditions (unknown session, duplicate session id, illegal lifecycle
transition, acting on a not-yet-started or already-started challenge, unknown
tip) that the taxonomy leaves implicit. -/
inductive CoreError where
  | AlreadyActive
  | SessionNotActive
  | ParticipantNotFound
  | ParticipantTerminal
  | InvalidChallengeIndex
  | TipNotYetAvailable
  | CapacityExceeded
  | AlreadyJoined
  | SessionNotFound
  | SessionAlreadyExists
  | InvalidTransition
  | ChallengeNotStarted
  | ChallengeAlreadyStarted
  | TipNotFound
  deriving Repr, DecidableEq

/-- Modelled from the spec: `computeScore(basePoints, tipsUsed[], timeSpent)`.
The accumulator walks the used tips, deducting each tip's points from the
running score; scores are non-negative machine counts, so each deduction
floors at zero (`Nat` truncated subtraction).  `timeSpent` does not enter the
score formula. -/
def computeScore (basePoints : Nat) (tipsUsed : List Tip) (timeSpent : Nat) : Nat :=
  tipsUsed.foldl (fun s tp => s - tp.pointsDeduction) basePoints

/-- Modelled from the spec: `tryActivate` atomically checks and sets the
single global active-session slot; rejects with `AlreadyActive` if the slot is
already held. -/
def Registry.tryActivate (r : Registry) (sid : SessionId) : Registry × Option CoreError :=
  match r.activeSlot with
  | none => ({ activeSlot := some sid }, none)
  | some _ => (r, some .AlreadyActive)

/-- Modelled from the spec: `release(sessionId)` clears the slot only if it
currently holds that session identity; otherwise it is a no-op. -/
def Registry.release (r : Registry) (sid : SessionId) : Registry :=
  if r.activeSlot = some sid then { activeSlot := none } else r

/-- A participant's cumulative time spent as of `now`: the time banked on
completed challenges plus the elapsed time on the in-flight challenge. -/
def Participant.cumTime (p : Participant) (now : Nat) : Nat :=
  p.timeSpent + (match p.challengeStartedAt with
    | some t0 => now - t0
    | none => 0)

/-- Modelled from the spec: the participant actions `start-challenge`,
`request-tip`, `submit-solution`.  Each carries the challenge index it targets;
`submit-solution` carries the external validator's verdict. -/
inductive PAction where
  | startChallenge (idx : Nat)
  | requestTip (idx : Nat) (tipIdx : Nat)
  | submitSolution (idx : Nat) (correct : Bool)
  deriving Repr, DecidableEq

/-- Modelled from the spec: the Participant State Tracker's action handler.
An action is applied only if the participant is `active`, the lazily evaluated
cumulative time limit is not exceeded (else the participant becomes
`abandoned` and the action is refused), and the action's challenge index
matches `currentChallengeIndex`.  `request-tip` is gated on the tip's delay;
`submit-solution` with a correct solution appends a completion record, scores
it through `computeScore`, and advances the index — reaching the end of the
sequence completes the participant. -/
def recordAction (s : Session) (p : Participant) (a : PAction) (now : Nat) :
    Participant × Option CoreError :=
  if p.status ≠ .active then (p, some .ParticipantTerminal)
  else if s.totalTimeLimit < p.cumTime now then
    ({ p with status := .abandoned }, some .ParticipantTerminal)
  else
    match a with
    | .startChallenge idx =>
      if idx ≠ p.currentChallengeIndex then (p, some .InvalidChallengeIndex)
      else match s.challenges.get? idx with
        | none => (p, some .InvalidChallengeIndex)
        | some _ =>
          match p.challengeStartedAt with
          | some _ => (p, some .ChallengeAlreadyStarted)
          | none => ({ p with challengeStartedAt := some now }, none)
    | .requestTip idx tipIdx =>
      if idx ≠ p.currentChallengeIndex then (p, some .InvalidChallengeIndex)
      else match s.challenges.get? idx with
        | none => (p, some .InvalidChallengeIndex)
        | some c =>
          match p.challengeStartedAt with
          | none => (p, some .ChallengeNotStarted)
          | some t0 =>
            match c.tips.get? tipIdx with
            | none => (p, some .TipNotFound)
            | some tp =>
              if now - t0 < tp.availableAfterSeconds then (p, some .TipNotYetAvailable)
              else ({ p with tipsTaken := p.tipsTaken ++ [tp] }, none)
    | .submitSolution idx correct =>
      if idx ≠ p.currentChallengeIndex then (p, some .InvalidChallengeIndex)
      else match s.challenges.get? idx with
        | none => (p, some .InvalidChallengeIndex)
        | some c =>
          match p.challengeStartedAt with
          | none => (p, some .ChallengeNotStarted)
          | some t0 =>
            if correct then
              ({ p with
                  currentChallengeIndex := idx + 1,
                  totalScore := p.totalScore + computeScore c.basePoints p.tipsTaken (now - t0),
                  timeSpent := p.timeSpent + (now - t0),
                  challengeStartedAt := none,
                  tipsTaken := [],
                  attempts := 0,
                  completions := p.completions ++
                    [{ challengeIndex := idx, completedAt := now,
                       score := computeScore c.basePoints p.tipsTaken (now - t0),
                       timeSpent := now - t0, tipsUsed := p.tipsTaken.length,
                       attempts := p.attempts + 1 }],
                  status := if idx + 1 = s.challenges.length then .completed else p.status },
                none)
            else
              ({ p with attempts := p.attempts + 1 }, none)

/-- The operations of the engine: the inbound boundary calls plus the periodic
timeout sweep.  Each time-sensitive operation carries the wall-clock instant
at which it runs. -/
inductive Op where
  | createSession (sid : SessionId) (challenges : List Challenge) (maxParticipants : Nat)
  | activateSession (sid : SessionId) (now : Nat)
  | cancelSession (sid : SessionId)
  | completeSession (sid : SessionId) (now : Nat)
  | joinSession (sid : SessionId) (uid : UserId) (now : Nat)
  | submitAction (sid : SessionId) (uid : UserId) (a : PAction) (now : Nat)
  | sweep (now : Nat)
  deriving Repr, DecidableEq

/-- Look a session up by identifier. -/
def findSession (st : SystemState) (sid : SessionId) : Option Session :=
  st.sessions.find? (fun s => s.sid == sid)

/-- Look a participant up by user identifier. -/
def Session.findParticipant (s : Session) (uid : UserId) : Option Participant :=
  s.participants.find? (fun p => p.userId == uid)

/-- Rewrite the session with the given identifier through `f`, leaving every
other session untouched. -/
def SystemState.updateSession (st : SystemState) (sid : SessionId) (f : Session → Session) :
    SystemState :=
  { st with sessions := st.sessions.map (fun s => if s.sid == sid then f s else s) }

/-- Rewrite every participant record with the given user identifier through
`f`. -/
def Session.updateParticipant (s : Session) (uid : UserId) (f : Participant → Participant) :
    Session :=
  { s with participants := s.participants.map (fun p => if p.userId == uid then f p else p) }

/-- Reports whether no participant of `s` is still active. -/
def Session.allTerminal (s : Session) : Bool :=
  s.participants.all (fun p => decide (p.status ≠ .active))

/-- The zero-value participant record created on join. -/
def newParticipant (uid : UserId) : Participant :=
  { userId := uid, status := .active, currentChallengeIndex := 0, totalScore := 0,
    timeSpent := 0, challengeStartedAt := none, tipsTaken := [], attempts := 0,
    completions := [] }

/-- Timeout sweep of one participant: an active participant whose cumulative
time exceeds the session's budget becomes `abandoned`. -/
def sweepParticipant (limit now : Nat) (p : Participant) : Participant :=
  if p.status = .active ∧ limit < p.cumTime now then { p with status := .abandoned } else p

/-- Reports whether the session's cumulative time budget has expired at
`now` (an unstarted session has no running budget). -/
def Session.timeBudgetExpired (s : Session) (now : Nat) : Bool :=
  match s.startTime with
  | some t0 => decide (t0 + s.totalTimeLimit ≤ now)
  | none => false

/-- Modelled from the spec: one atomic operation of the engine.  The Lifecycle
Controller drives `scheduled → active → completed/cancelled`; activation
delegates to `Registry.tryActivate` and a failure leaves the session
`scheduled`; transitions to `completed`/`cancelled` release the registry slot;
`completed` requires the time budget to have expired or every participant to
be terminal; joining requires an `active` session with free capacity and an
unseen user; participant actions go through `recordAction`; the sweep lazily
abandons timed-out participants. -/
def step (st : SystemState) (op : Op) : SystemState × Option CoreError :=
  match op with
  | .createSession sid chs maxP =>
    match findSession st sid with
    | some _ => (st, some .SessionAlreadyExists)
    | none =>
      ({ st with sessions := st.sessions ++
          [{ sid := sid, challenges := chs, maxParticipants := maxP,
             totalTimeLimit := (chs.map Challenge.timeLimit).sum,
             status := .scheduled, startTime := none, participants := [] }] }, none)
  | .activateSession sid now =>
    match findSession st sid with
    | none => (st, some .SessionNotFound)
    | some s =>
      if s.status ≠ .scheduled then (st, some .InvalidTransition)
      else
        match st.registry.activeSlot with
        | some _ => (st, some .AlreadyActive)
        | none =>
          ({ st.updateSession sid
              (fun s0 => { s0 with status := .active, startTime := some now }) with
             registry := { activeSlot := some sid } }, none)
  | .cancelSession sid =>
    match findSession st sid with
    | none => (st, some .SessionNotFound)
    | some s =>
      if s.status = .scheduled ∨ s.status = .active then
        ({ st.updateSession sid (fun s0 => { s0 with status := .cancelled }) with
           registry := st.registry.release sid }, none)
      else (st, some .InvalidTransition)
  | .completeSession sid now =>
    match findSession st sid with
    | none => (st, some .SessionNotFound)
    | some s =>
      if s.status = .active ∧ (s.allTerminal ∨ s.timeBudgetExpired now) then
        ({ st.updateSession sid (fun s0 => { s0 with status := .completed }) with
           registry := st.registry.release sid }, none)
      else (st, some .InvalidTransition)
  | .joinSession sid uid _ =>
    match findSession st sid with
    | none => (st, some .SessionNotFound)
    | some s =>
      if s.status ≠ .active then (st, some .SessionNotActive)
      else if s.maxParticipants ≤ s.participants.length then (st, some .CapacityExceeded)
      else match s.findParticipant uid with
        | some _ => (st, some .AlreadyJoined)
        | none =>
          (st.updateSession sid
            (fun s0 => { s0 with participants := s0.participants ++ [newParticipant uid] }),
           none)
  | .submitAction sid uid a now =>
    match findSession st sid with
    | none => (st, some .SessionNotFound)
    | some s =>
      if s.status ≠ .active then (st, some .SessionNotActive)
      else match s.findParticipant uid with
        | none => (st, some .ParticipantNotFound)
        | some p =>
          (st.updateSession sid
            (fun s0 => s0.updateParticipant uid (fun q => (recordAction s q a now).1)),
           (recordAction s p a now).2)
  | .sweep now =>
    ({ st with sessions := st.sessions.map (fun s =>
        if s.status = .active then
          { s with participants := s.participants.map (sweepParticipant s.totalTimeLimit now) }
        else s) }, none)

/-- The engine's initial state: empty registry slot, no sessions. -/
def initState : SystemState :=
  { registry := { activeSlot := none }, sessions := [] }

/-- The system invariant the registry is meant to enforce: session identifiers
are unique, and every `active` session is the one the registry slot holds. -/
def Inv (st : SystemState) : Prop :=
  (st.sessions.map Session.sid).Nodup ∧
  ∀ s ∈ st.sessions, s.status = .active → st.registry.activeSlot = some s.sid

/-- How many sessions are `active`. -/
def SystemState.activeCount (st : SystemState) : Nat :=
  st.sessions.countP (fun s => s.status == .active)

instance : DecidablePred Inv := fun st => by
  unfold Inv
  exact inferInstanceAs (Decidable _)

/-- Modelled from the spec: the leaderboard rank order — score descending,
ties broken by cumulative time spent ascending. -/
def rankLE (p q : Participant) : Prop :=
  q.totalScore < p.totalScore ∨ (p.totalScore = q.totalScore ∧ p.timeSpent ≤ q.timeSpent)

instance : DecidableRel rankLE := fun p q => by
  unfold rankLE
  exact inferInstanceAs (Decidable _)

instance : IsTotal Participant rankLE := by
  constructor
  intro a b
  unfold rankLE
  omega

instance : IsTrans Participant rankLE := by
  constructor
  intro a b c hab hbc
  unfold rankLE at hab hbc ⊢
  omega

/-- Modelled from the spec: the point-in-time leaderboard query, returning the
participants ranked by `rankLE`. -/
def leaderboard (ps : List Participant) : List Participant :=
  ps.insertionSort rankLE

/-- The current challenge index of a participant of a session, when both
exist. -/
def participantIndex (st : SystemState) (sid : SessionId) (uid : UserId) : Option Nat :=
  (findSession st sid).bind fun s =>
    (s.findParticipant uid).map Participant.currentChallengeIndex

/-- A one-session, one-participant state used to witness the participant
theorems on concrete data. -/
def sessW : Session :=
  { sid := 1, challenges := [], maxParticipants := 10, totalTimeLimit := 100,
    status := .active, startTime := some 0, participants := [newParticipant 7] }

/-- The witness system state holding `sessW` as the active session. -/
def stW : SystemState :=
  { registry := { activeSlot := some 1 }, sessions := [sessW] }

/-- A scheduled second session, for witnessing lifecycle claims. -/
def sessW2 : Session :=
  { sid := 2, challenges := [], maxParticipants := 10, totalTimeLimit := 50,
    status := .scheduled, startTime := none, participants := [] }

/-- The witness state with `sessW` active and `sessW2` scheduled. -/
def stW2 : SystemState :=
  { registry := { activeSlot := some 1 }, sessions := [sessW, sessW2] }

/-- The status of the identified session, when it exists. -/
def sessionStatus (st : SystemState) (sid : SessionId) : Option SessionStatus :=
  (findSession st sid).map Session.status

/-- The tip of the specification's gating scenario: unlocked after 300
seconds, costing 10 points. -/
def tipW : Tip := { availableAfterSeconds := 300, pointsDeduction := 10 }

/-- The challenge of the gating scenario. -/
def chalW : Challenge := { basePoints := 100, timeLimit := 3600, tips := [tipW] }

/-- A participant who started `chalW` at time 0. -/
def pW : Participant := { newParticipant 7 with challengeStartedAt := some 0 }

/-- The session of the gating scenario. -/
def sessW3 : Session :=
  { sid := 3, challenges := [chalW], maxParticipants := 10, totalTimeLimit := 3600,
    status := .active, startTime := some 0, participants := [pW] }

/-- Participant A of the leaderboard scenario: 100 points in 50 seconds. -/
def pA : Participant := { newParticipant 1 with totalScore := 100, timeSpent := 50 }

/-- Participant B of the leaderboard scenario: 100 points in 55 seconds. -/
def pB : Participant := { newParticipant 2 with totalScore := 100, timeSpent := 55 }

end LiveChallenge

namespace SkillTrail

/-- C1: `NewSkillTrailCoreStack` returns, for every scope, id and props, a
stack whose resource list is empty: no child construct is added between stack
creation and return. -/
theorem newSkillTrailCoreStack_empty (scope : Construct) (id : String)
    (props : Option SkillTrailCoreStackProps) :
    ∃ s : Stack, NewSkillTrailCoreStack scope id props = .ok s ∧ s.resources = [] := by
  cases props <;> exact ⟨_, rfl, rfl⟩

/-- C9: calling `NewSkillTrailCoreStack` with a nil `props` does not
dereference nil: it succeeds, using the zero-value `StackProps`. -/
theorem newSkillTrailCoreStack_nil_props (scope : Construct) (id : String) :
    NewSkillTrailCoreStack scope id none =
      .ok (NewStack scope id { Env := none }) := rfl

/-- C10: `env` returns Region `"eu-south-1"` whatever the process environment
holds, its Account is exactly the value of `CDK_DEFAULT_ACCOUNT`, and two
environments that agree outside `CDK_DEFAULT_REGION` produce the same result —
in particular the same Region. -/
theorem env_region_constant (g g' : String → String)
    (h : ∀ k, k ≠ "CDK_DEFAULT_REGION" → g k = g' k) :
    (env g).Region = "eu-south-1" ∧
      (env g).Account = g "CDK_DEFAULT_ACCOUNT" ∧
      env g = env g' := by
  refine ⟨rfl, rfl, ?_⟩
  have hacct : g "CDK_DEFAULT_ACCOUNT" = g' "CDK_DEFAULT_ACCOUNT" :=
    h "CDK_DEFAULT_ACCOUNT" (by decide)
  simp [env, hacct]

/-- Witness for C10 at two concrete environments that differ only in
`CDK_DEFAULT_REGION`. -/
theorem env_region_constant_witness :
    (env fun k => if k = "CDK_DEFAULT_REGION" then "us-east-1" else "111122223333").Region
        = "eu-south-1" ∧
      (env fun k => if k = "CDK_DEFAULT_REGION" then "us-east-1" else "111122223333").Account
        = (fun k => if k = "CDK_DEFAULT_REGION" then "us-east-1" else "111122223333")
            "CDK_DEFAULT_ACCOUNT" ∧
      (env fun k => if k = "CDK_DEFAULT_REGION" then "us-east-1" else "111122223333")
        = (env fun k => if k = "CDK_DEFAULT_REGION" then "eu-west-1" else "111122223333") :=
  env_region_constant
    (fun k => if k = "CDK_DEFAULT_REGION" then "us-east-1" else "111122223333")
    (fun k => if k = "CDK_DEFAULT_REGION" then "eu-west-1" else "111122223333")
    (by intro k hk; simp [hk])

end SkillTrail

namespace LiveChallenge

/-- The running deduction fold computes the truncated difference with the sum
of all deductions. -/
theorem computeScore_eq_sub_sum (tips : List Tip) (b t : Nat) :
    computeScore b tips t = b - (tips.map Tip.pointsDeduction).sum := by
  induction tips generalizing b with
  | nil => simp [computeScore]
  | cons tp tips ih =>
    simp only [computeScore, List.foldl_cons, List.map_cons, List.sum_cons] at ih ⊢
    rw [ih (b - tp.pointsDeduction), Nat.sub_sub]

/-- C3: every score the accumulator returns equals
`max(0, basePoints - sum(tipDeductions))`, and in particular is never
negative. -/
theorem computeScore_spec (b : Nat) (tips : List Tip) (t : Nat) :
    ((computeScore b tips t : Int) =
        max 0 ((b : Int) - ((tips.map Tip.pointsDeduction).sum : Int))) ∧
      (0 : Int) ≤ (computeScore b tips t : Int) := by
  rw [computeScore_eq_sub_sum]
  constructor
  · omega
  · exact Int.ofNat_nonneg _

/-- C4: `release` is idempotent, clears the slot exactly when it holds the
given session identity, and is a no-op otherwise. -/
theorem release_idempotent (r : Registry) (sid : SessionId) :
    (r.release sid).release sid = r.release sid ∧
      (r.activeSlot = some sid → r.release sid = { activeSlot := none }) ∧
      (r.activeSlot ≠ some sid → r.release sid = r) := by
  by_cases h : r.activeSlot = some sid <;> simp [Registry.release, h]

/-- Witness for C4 at a registry whose slot holds session 1. -/
theorem release_idempotent_witness :
    ((Registry.mk (some 1)).release 1).release 1 = (Registry.mk (some 1)).release 1 ∧
      ((Registry.mk (some 1)).activeSlot = some 1 →
        (Registry.mk (some 1)).release 1 = { activeSlot := none }) ∧
      ((Registry.mk (some 1)).activeSlot ≠ some 1 →
        (Registry.mk (some 1)).release 1 = Registry.mk (some 1)) :=
  release_idempotent (Registry.mk (some 1)) 1

/-- Relation `rankLE` is reflexive. -/
theorem rankLE_refl (p : Participant) : rankLE p p := by
  unfold rankLE
  omega

/-- C8: the leaderboard is a permutation of the participant set, sorted by
score descending with ties broken by time spent ascending; among equal scores
the lower time ranks first, and on a non-empty set the first entry is a
participant ranking no worse than every participant. -/
theorem leaderboard_spec (ps : List Participant) :
    (leaderboard ps).Perm ps ∧
      List.Sorted rankLE (leaderboard ps) ∧
      (∀ a b : Participant, List.Sublist [a, b] (leaderboard ps) →
        a.totalScore = b.totalScore → a.timeSpent ≤ b.timeSpent) ∧
      (ps ≠ [] → ∃ w rest, leaderboard ps = w :: rest ∧ w ∈ ps ∧ ∀ p ∈ ps, rankLE w p) := by
  have hperm : (leaderboard ps).Perm ps := List.perm_insertionSort rankLE ps
  have hsorted : List.Sorted rankLE (leaderboard ps) := List.sorted_insertionSort rankLE ps
  refine ⟨hperm, hsorted, ?_, ?_⟩
  · intro a b hsub hscore
    have hpair : List.Pairwise rankLE [a, b] := hsorted.sublist hsub
    have hr : rankLE a b := (List.pairwise_cons.mp hpair).1 b (by simp)
    unfold rankLE at hr
    omega
  · intro hne
    cases hlb : leaderboard ps with
    | nil =>
      exact absurd (hperm.symm.trans (by rw [hlb])).eq_nil hne
    | cons w rest =>
      refine ⟨w, rest, rfl, ?_, ?_⟩
      · exact hperm.mem_iff.mp (by rw [hlb]; exact List.mem_cons_self w rest)
      · intro p hp
        have hp' : p ∈ w :: rest := by
          rw [← hlb]
          exact hperm.mem_iff.mpr hp
        rcases List.mem_cons.mp hp' with rfl | hp''
        · exact rankLE_refl p
        · rw [hlb] at hsorted
          exact (List.sorted_cons.mp hsorted).1 p hp''

/-- Lookup `find?` commutes with a map that does not change the predicate's verdict. -/
theorem find?_map_comm {α : Type} (g : α → α) (q : α → Bool)
    (hg : ∀ x, q (g x) = q x) :
    ∀ l : List α, (l.map g).find? q = (l.find? q).map g := by
  intro l
  induction l with
  | nil => rfl
  | cons x xs ih =>
    simp only [List.map_cons]
    cases hq : q x with
    | true =>
      have hq' : q (g x) = true := by rw [hg x]; exact hq
      rw [List.find?_cons_of_pos _ hq', List.find?_cons_of_pos _ hq]
      rfl
    | false =>
      have hq' : ¬ q (g x) = true := by rw [hg x, hq]; exact Bool.false_ne_true
      rw [List.find?_cons_of_neg _ hq',
        List.find?_cons_of_neg _ (by rw [hq]; exact Bool.false_ne_true), ih]

/-- A session found under identifier `sid` carries that identifier. -/
theorem findSession_sid {st : SystemState} {sid : SessionId} {s : Session}
    (h : findSession st sid = some s) : s.sid = sid := by
  have := List.find?_some h
  simpa using this

/-- A session found in the state is a member of its session list. -/
theorem findSession_mem {st : SystemState} {sid : SessionId} {s : Session}
    (h : findSession st sid = some s) : s ∈ st.sessions :=
  List.mem_of_find?_eq_some h

/-- A participant found under identifier `uid` carries that identifier. -/
theorem findParticipant_userId {s : Session} {uid : UserId} {p : Participant}
    (h : s.findParticipant uid = some p) : p.userId = uid := by
  have := List.find?_some h
  simpa using this

/-- Session lookup through `updateSession`, for an update that keeps session
identifiers. -/
theorem findSession_updateSession (st : SystemState) (sid2 sid : SessionId)
    (f : Session → Session) (hf : ∀ s, (f s).sid = s.sid) :
    findSession (st.updateSession sid2 f) sid =
      (findSession st sid).map (fun s => if s.sid == sid2 then f s else s) := by
  unfold findSession SystemState.updateSession
  exact find?_map_comm _ _
    (fun s => by by_cases h : s.sid == sid2 <;> simp [h, hf]) _

/-- Participant lookup through `updateParticipant`, for an update that keeps
user identifiers. -/
theorem findParticipant_updateParticipant (s : Session) (uid2 uid : UserId)
    (f : Participant → Participant) (hf : ∀ p, (f p).userId = p.userId) :
    (s.updateParticipant uid2 f).findParticipant uid =
      (s.findParticipant uid).map (fun p => if p.userId == uid2 then f p else p) := by
  unfold Session.findParticipant Session.updateParticipant
  exact find?_map_comm _ _
    (fun p => by by_cases h : p.userId == uid2 <;> simp [h, hf]) _

/-- Handler `recordAction` never changes the participant's identity. -/
theorem recordAction_userId (s : Session) (p : Participant) (a : PAction) (now : Nat) :
    (recordAction s p a now).1.userId = p.userId := by
  cases a <;> simp only [recordAction] <;> (repeat' split) <;> rfl

/-- Handler `recordAction` never decreases the participant's current challenge
index. -/
theorem recordAction_index_mono (s : Session) (p : Participant) (a : PAction) (now : Nat) :
    p.currentChallengeIndex ≤ (recordAction s p a now).1.currentChallengeIndex := by
  cases a <;> simp only [recordAction] <;> (repeat' split) <;> simp_all <;> omega

/-- Handler `recordAction` either leaves the index alone, or the action was a correct
`submit-solution`, it succeeded, and the index advanced by exactly one. -/
theorem recordAction_index_cases (s : Session) (p : Participant) (a : PAction) (now : Nat) :
    (recordAction s p a now).1.currentChallengeIndex = p.currentChallengeIndex ∨
      ∃ idx, a = .submitSolution idx true ∧ (recordAction s p a now).2 = none ∧
        (recordAction s p a now).1.currentChallengeIndex = p.currentChallengeIndex + 1 := by
  cases a <;> simp only [recordAction] <;> (repeat' split) <;>
    first
      | exact Or.inl rfl
      | (subst_vars; exact Or.inr ⟨_, rfl, rfl, rfl⟩)
      | simp_all

/-- Sessions with the same participant list agree on participant lookup. -/
theorem findParticipant_congr {s1 s2 : Session} (h : s1.participants = s2.participants)
    (uid : UserId) : s1.findParticipant uid = s2.findParticipant uid := by
  unfold Session.findParticipant
  rw [h]

/-- Index lookup `participantIndex` ignores the registry. -/
theorem participantIndex_registry (st : SystemState) (r : Registry) (sid : SessionId)
    (uid : UserId) :
    participantIndex { st with registry := r } sid uid = participantIndex st sid uid := rfl

/-- Index lookup `participantIndex` through a session map that keeps identifiers and
participant indices. -/
theorem participantIndex_map_sessions (st : SystemState) (g : Session → Session)
    (sid : SessionId) (uid : UserId)
    (hsid : ∀ s, (g s).sid = s.sid)
    (hidx : ∀ s, ((g s).findParticipant uid).map Participant.currentChallengeIndex =
      (s.findParticipant uid).map Participant.currentChallengeIndex) :
    participantIndex { st with sessions := st.sessions.map g } sid uid =
      participantIndex st sid uid := by
  unfold participantIndex findSession
  have hmap : (st.sessions.map g).find? (fun s => s.sid == sid) =
      (st.sessions.find? (fun s => s.sid == sid)).map g :=
    find?_map_comm g _ (fun s => by simp [hsid]) _
  rw [show ({ st with sessions := st.sessions.map g } : SystemState).sessions
      = st.sessions.map g from rfl, hmap]
  cases st.sessions.find? (fun s => s.sid == sid) with
  | none => rfl
  | some s => simpa using hidx s

/-- Index lookup `participantIndex` is unchanged by `updateSession` with a rewrite that
keeps identifiers and participants, whatever happens to the registry. -/
theorem participantIndex_updateSession_keep (st : SystemState) (sid2 : SessionId)
    (f : Session → Session) (r : Registry) (sid : SessionId) (uid : UserId)
    (hf : ∀ s, (f s).sid = s.sid) (hp : ∀ s, (f s).participants = s.participants) :
    participantIndex { st.updateSession sid2 f with registry := r } sid uid =
      participantIndex st sid uid := by
  rw [participantIndex_registry]
  unfold SystemState.updateSession
  exact participantIndex_map_sessions st _ sid uid
    (fun s => by by_cases h : s.sid == sid2 <;> simp [h, hf])
    (fun s => by
      by_cases h : s.sid == sid2
      · simp only [h, if_true]
        rw [findParticipant_congr (hp s)]
      · simp [h])

/-- Session lookup after appending new sessions. -/
theorem findSession_append (st : SystemState) (l2 : List Session) (sid : SessionId) :
    findSession { st with sessions := st.sessions ++ l2 } sid =
      (findSession st sid).or (l2.find? (fun s => s.sid == sid)) := by
  unfold findSession
  exact List.find?_append

/-- The sweep never changes a participant's identity. -/
theorem sweepParticipant_userId (limit now : Nat) (p : Participant) :
    (sweepParticipant limit now p).userId = p.userId := by
  unfold sweepParticipant
  split <;> rfl

/-- The sweep never changes a participant's challenge index. -/
theorem sweepParticipant_index (limit now : Nat) (p : Participant) :
    (sweepParticipant limit now p).currentChallengeIndex = p.currentChallengeIndex := by
  unfold sweepParticipant
  split <;> rfl

/-- After any step, a participant's recorded index is unchanged, or was
undefined before, or the operation was a participant action on exactly that
participant and the new index is what `recordAction` produced. -/
theorem participantIndex_step (st : SystemState) (op : Op) (sid : SessionId)
    (uid : UserId) :
    participantIndex (step st op).1 sid uid = participantIndex st sid uid ∨
      participantIndex st sid uid = none ∨
      ∃ a now s p, op = Op.submitAction sid uid a now ∧
        findSession st sid = some s ∧ s.findParticipant uid = some p ∧
        participantIndex st sid uid = some p.currentChallengeIndex ∧
        participantIndex (step st op).1 sid uid =
          some ((recordAction s p a now).1.currentChallengeIndex) ∧
        (step st op).2 = (recordAction s p a now).2 := by
  cases op with
  | createSession sid2 chs maxP =>
    cases h : findSession st sid2 with
    | some s0 => left; simp [step, h]
    | none =>
      cases hfs : findSession st sid with
      | none => right; left; simp [participantIndex, hfs]
      | some s =>
        left
        simp only [step, h]
        unfold participantIndex
        rw [findSession_append, hfs]
        rfl
  | activateSession sid2 now =>
    cases h : findSession st sid2 with
    | none => left; simp [step, h]
    | some s0 =>
      by_cases hstat : s0.status ≠ .scheduled
      · left; simp [step, h, hstat]
      · cases hslot : st.registry.activeSlot with
        | some x => left; simp [step, h, hstat, hslot]
        | none =>
          left
          simp only [step, h, hstat, hslot, if_false, reduceCtorEq]
          exact participantIndex_updateSession_keep st sid2 _ _ sid uid
            (fun s => rfl) (fun s => rfl)
  | cancelSession sid2 =>
    cases h : findSession st sid2 with
    | none => left; simp [step, h]
    | some s0 =>
      by_cases hstat : s0.status = .scheduled ∨ s0.status = .active
      · left
        simp only [step, h, hstat, if_true]
        exact participantIndex_updateSession_keep st sid2 _ _ sid uid
          (fun s => rfl) (fun s => rfl)
      · left; simp [step, h, hstat]
  | completeSession sid2 now =>
    cases h : findSession st sid2 with
    | none => left; simp [step, h]
    | some s0 =>
      by_cases hstat : s0.status = .active ∧ (s0.allTerminal ∨ s0.timeBudgetExpired now)
      · left
        simp only [step, h, hstat, if_true]
        exact participantIndex_updateSession_keep st sid2 _ _ sid uid
          (fun s => rfl) (fun s => rfl)
      · left; simp [step, h, hstat]
  | joinSession sid2 uid2 now =>
    cases h : findSession st sid2 with
    | none => left; simp [step, h]
    | some s0 =>
      by_cases hact : s0.status ≠ .active
      · left; simp [step, h, hact]
      · by_cases hcap : s0.maxParticipants ≤ s0.participants.length
        · left; simp [step, h, hact, hcap]
        · cases hjoined : s0.findParticipant uid2 with
          | some p0 => left; simp [step, h, hact, hcap, hjoined]
          | none =>
            cases hfs : findSession st sid with
            | none =>
              right; left
              simp [participantIndex, hfs]
            | some s =>
              cases hfp : s.findParticipant uid with
              | none =>
                right; left
                simp [participantIndex, hfs, hfp]
              | some p =>
                left
                simp only [step, h, hact, hcap, hjoined, if_false, reduceCtorEq]
                unfold participantIndex
                rw [findSession_updateSession st sid2 sid
                  (fun s1 => { s1 with participants := s1.participants ++ [newParticipant uid2] })
                  (fun s1 => rfl), hfs]
                rw [Option.map_some', Option.some_bind, Option.some_bind]
                have happ : ∀ s2 : Session,
                    s2.participants = s.participants ++ [newParticipant uid2] →
                    s2.findParticipant uid = some p := by
                  intro s2 h2
                  unfold Session.findParticipant at hfp ⊢
                  rw [h2, List.find?_append, hfp]
                  rfl
                by_cases hss : s.sid = sid2
                · rw [if_pos (by simp [hss]), happ _ rfl, hfp]
                · rw [if_neg (by simp [hss])]
  | submitAction sid2 uid2 a now =>
    cases h : findSession st sid2 with
    | none => left; simp [step, h]
    | some s0 =>
      by_cases hact : s0.status ≠ .active
      · left; simp [step, h, hact]
      · cases hp0 : s0.findParticipant uid2 with
        | none => left; simp [step, h, hact, hp0]
        | some p0 =>
          cases hfs : findSession st sid with
          | none =>
            left
            simp only [step, h, hact, hp0, if_false, reduceCtorEq]
            unfold participantIndex
            rw [findSession_updateSession st sid2 sid
              (fun s1 => s1.updateParticipant uid2 fun q => (recordAction s0 q a now).1)
              (fun s1 => rfl), hfs]
            simp [participantIndex, hfs]
          | some s =>
            by_cases hss : s.sid = sid2
            · have hsid : s.sid = sid := findSession_sid hfs
              have hsideq : sid = sid2 := by rw [← hsid, hss]
              subst hsideq
              have hseq : s = s0 := by
                rw [hfs] at h
                exact Option.some_injective _ h
              subst hseq
              cases hfp : s.findParticipant uid with
              | none =>
                right; left
                simp [participantIndex, hfs, hfp]
              | some p =>
                by_cases hpu : p.userId = uid2
                · have hpuid : p.userId = uid := findParticipant_userId hfp
                  have huid : uid = uid2 := by rw [← hpuid, hpu]
                  subst huid
                  have hpeq : p = p0 := by
                    rw [hfp] at hp0
                    exact Option.some_injective _ hp0
                  subst hpeq
                  have hstep : step st (Op.submitAction sid uid a now) =
                      (st.updateSession sid
                        (fun s1 => s1.updateParticipant uid fun q => (recordAction s q a now).1),
                       (recordAction s p a now).2) := by
                    simp [step, hfs, hact, hfp]
                  right; right
                  refine ⟨a, now, s, p, rfl, rfl, hfp, ?_, ?_, ?_⟩
                  · simp [participantIndex, hfs, hfp]
                  · rw [hstep]
                    unfold participantIndex
                    rw [findSession_updateSession st sid sid
                      (fun s1 => s1.updateParticipant uid fun q => (recordAction s q a now).1)
                      (fun s1 => rfl), hfs]
                    have hupd : (Session.updateParticipant s uid
                        fun q => (recordAction s q a now).1).findParticipant uid =
                        some ((recordAction s p a now).1) := by
                      rw [findParticipant_updateParticipant s uid uid _
                        (fun q => recordAction_userId s q a now), hfp]
                      simp [findParticipant_userId hfp]
                    simp [findSession_sid hfs, hupd]
                  · rw [hstep]
                · left
                  have hstep : step st (Op.submitAction sid uid2 a now) =
                      (st.updateSession sid
                        (fun s1 => s1.updateParticipant uid2 fun q => (recordAction s q a now).1),
                       (recordAction s p0 a now).2) := by
                    simp [step, hfs, hact, hp0]
                  rw [hstep]
                  unfold participantIndex
                  rw [findSession_updateSession st sid sid
                    (fun s1 => s1.updateParticipant uid2 fun q => (recordAction s q a now).1)
                    (fun s1 => rfl), hfs]
                  have hupd : (Session.updateParticipant s uid2
                      fun q => (recordAction s q a now).1).findParticipant uid =
                      some p := by
                    rw [findParticipant_updateParticipant s uid2 uid _
                      (fun q => recordAction_userId s q a now), hfp]
                    simp [hpu]
                  simp [findSession_sid hfs, hupd, hfp]
            · left
              have hstep : step st (Op.submitAction sid2 uid2 a now) =
                  (st.updateSession sid2
                    (fun s1 => s1.updateParticipant uid2 fun q => (recordAction s0 q a now).1),
                   (recordAction s0 p0 a now).2) := by
                simp [step, h, hact, hp0]
              rw [hstep]
              unfold participantIndex
              rw [findSession_updateSession st sid2 sid
                (fun s1 => s1.updateParticipant uid2 fun q => (recordAction s0 q a now).1)
                (fun s1 => rfl), hfs]
              simp [hss]
  | sweep now =>
    left
    simp only [step]
    apply participantIndex_map_sessions st _ sid uid
    · intro s
      by_cases hs : s.status = .active <;> simp [hs]
    · intro s
      by_cases hs : s.status = .active
      · simp only [hs, if_true]
        have hcomm : (s.participants.map (sweepParticipant s.totalTimeLimit now)).find?
            (fun p => p.userId == uid) =
            (s.participants.find? (fun p => p.userId == uid)).map
              (sweepParticipant s.totalTimeLimit now) :=
          find?_map_comm _ _ (fun p => by simp [sweepParticipant_userId]) _
        unfold Session.findParticipant
        rw [show ({ s with participants :=
            s.participants.map (sweepParticipant s.totalTimeLimit now) } : Session).participants
            = s.participants.map (sweepParticipant s.totalTimeLimit now) from rfl, hcomm]
        cases s.participants.find? (fun p => p.userId == uid) with
        | none => rfl
        | some p => simp [sweepParticipant_index]
      · simp [hs]

/-- C5: across every operation, a participant's `currentChallengeIndex` never
decreases, and a strict increase happens only through a successful correct
`submit-solution` by that very participant. -/
theorem currentChallengeIndex_monotone (st : SystemState) (op : Op) (sid : SessionId)
    (uid : UserId) (i j : Nat)
    (hb : participantIndex st sid uid = some i)
    (ha : participantIndex (step st op).1 sid uid = some j) :
    i ≤ j ∧ (i < j →
      ∃ idx now, op = Op.submitAction sid uid (PAction.submitSolution idx true) now ∧
        (step st op).2 = none) := by
  rcases participantIndex_step st op sid uid with heq | hnone |
    ⟨a, now, s, p, hop, hsfind, hpfind, hb2, ha2, he⟩
  · rw [heq, hb] at ha
    injection ha with hij
    subst hij
    exact ⟨le_refl i, fun hlt => absurd hlt (lt_irrefl i)⟩
  · rw [hnone] at hb
    cases hb
  · rw [hb] at hb2
    rw [ha] at ha2
    injection hb2 with hi
    injection ha2 with hj
    constructor
    · rw [hi, hj]
      exact recordAction_index_mono s p a now
    · intro hlt
      rcases recordAction_index_cases s p a now with hsame | ⟨idx, hA, herr, _⟩
      · rw [hi, hj, hsame] at hlt
        exact absurd hlt (lt_irrefl _)
      · refine ⟨idx, now, ?_, ?_⟩
        · rw [hop, hA]
        · rw [hop] at he ⊢
          rw [he, herr]

/-- Witness for C5: the sweep leaves participant 7 of session 1 at index 0. -/
theorem currentChallengeIndex_monotone_witness :
    0 ≤ 0 ∧ (0 < 0 →
      ∃ idx now, Op.sweep 5 = Op.submitAction 1 7 (PAction.submitSolution idx true) now ∧
        (step stW (Op.sweep 5)).2 = none) :=
  currentChallengeIndex_monotone stW (Op.sweep 5) 1 7 0 0 (by decide) (by decide)

/-- With distinct identifiers, if every active session carries one fixed
identifier, at most one session is active. -/
theorem countP_active_le_one (l : List Session) (sid0 : SessionId)
    (hn : (l.map Session.sid).Nodup)
    (h : ∀ s ∈ l, s.status = .active → s.sid = sid0) :
    l.countP (fun s => s.status == .active) ≤ 1 := by
  induction l with
  | nil => simp
  | cons x xs ih =>
    rw [List.countP_cons]
    have hn' : (xs.map Session.sid).Nodup := (List.nodup_cons.mp (by simpa using hn)).2
    by_cases hx : x.status = .active
    · have hxs : xs.countP (fun s => s.status == .active) = 0 := by
        rw [List.countP_eq_zero]
        intro y hy
        simp only [beq_iff_eq]
        intro hya
        have h1 : y.sid = sid0 := h y (List.mem_cons_of_mem _ hy) hya
        have h2 : x.sid = sid0 := h x (List.mem_cons_self _ _) hx
        have hxnotin : x.sid ∉ xs.map Session.sid :=
          (List.nodup_cons.mp (by simpa using hn)).1
        exact hxnotin (by
          rw [h2, ← h1]
          exact List.mem_map_of_mem Session.sid hy)
      simp [hxs, hx]
    · have hxb : (x.status == .active) = false := by simp [hx]
      have := ih hn' (fun s hs ha => h s (List.mem_cons_of_mem _ hs) ha)
      simp only [hxb, Bool.false_eq_true, if_false]
      omega

/-- The invariant bounds the number of active sessions by one. -/
theorem inv_activeCount {st : SystemState} (h : Inv st) : st.activeCount ≤ 1 := by
  obtain ⟨hn, hs⟩ := h
  unfold SystemState.activeCount
  cases hslot : st.registry.activeSlot with
  | none =>
    have hz : st.sessions.countP (fun s => s.status == .active) = 0 := by
      rw [List.countP_eq_zero]
      intro s hsm
      simp only [beq_iff_eq]
      intro ha
      have := hs s hsm ha
      rw [hslot] at this
      cases this
    omega
  | some sid0 =>
    refine countP_active_le_one _ sid0 hn (fun s hsm ha => ?_)
    have := hs s hsm ha
    rw [hslot] at this
    exact (Option.some_injective _ this).symm

/-- The invariant survives any rewrite of the session list that keeps
identifiers and statuses and leaves the registry alone. -/
theorem inv_map_sessions (st : SystemState) (g : Session → Session)
    (hsid : ∀ s, (g s).sid = s.sid) (hstat : ∀ s, (g s).status = s.status)
    (h : Inv st) : Inv { st with sessions := st.sessions.map g } := by
  obtain ⟨hn, hs⟩ := h
  constructor
  · rw [show ({ st with sessions := st.sessions.map g } : SystemState).sessions
        = st.sessions.map g from rfl, List.map_map]
    have : (Session.sid ∘ g) = Session.sid := funext hsid
    rw [this]
    exact hn
  · intro s' hmem ha
    rw [show ({ st with sessions := st.sessions.map g } : SystemState).sessions
        = st.sessions.map g from rfl, List.mem_map] at hmem
    obtain ⟨t, ht, rfl⟩ := hmem
    rw [hsid t]
    exact hs t ht (by rw [← hstat t]; exact ha)

/-- The invariant survives `updateSession` with a rewrite that keeps
identifiers and statuses. -/
theorem inv_updateSession (st : SystemState) (sid2 : SessionId) (f : Session → Session)
    (hf : ∀ s, (f s).sid = s.sid) (hstat : ∀ s, (f s).status = s.status)
    (h : Inv st) : Inv (st.updateSession sid2 f) := by
  unfold SystemState.updateSession
  exact inv_map_sessions st _
    (fun s => by by_cases hb : s.sid == sid2 <;> simp [hb, hf])
    (fun s => by by_cases hb : s.sid == sid2 <;> simp [hb, hstat]) h

/-- The invariant for an `updateSession` composed with a registry write: the
identifiers stay, and the new registry slot accounts for whichever sessions
can be active afterwards. -/
theorem inv_update_general (st : SystemState) (sid2 : SessionId) (f : Session → Session)
    (r : Registry) (hf : ∀ s, (f s).sid = s.sid)
    (hn : (st.sessions.map Session.sid).Nodup)
    (hA : ∀ t ∈ st.sessions, t.sid = sid2 → (f t).status = .active → r.activeSlot = some t.sid)
    (hB : ∀ t ∈ st.sessions, t.sid ≠ sid2 → t.status = .active → r.activeSlot = some t.sid) :
    Inv { st.updateSession sid2 f with registry := r } := by
  constructor
  · show ((st.sessions.map (fun s => if s.sid == sid2 then f s else s)).map Session.sid).Nodup
    rw [List.map_map]
    have hcomp : (Session.sid ∘ fun s => if s.sid == sid2 then f s else s) = Session.sid := by
      funext s
      by_cases hb : s.sid = sid2 <;> simp [hb, hf]
    rw [hcomp]
    exact hn
  · intro s' hmem ha
    have hmem' : s' ∈ st.sessions.map (fun s => if s.sid == sid2 then f s else s) := hmem
    rw [List.mem_map] at hmem'
    obtain ⟨t, ht, rfl⟩ := hmem'
    show r.activeSlot = _
    by_cases hb : t.sid = sid2
    · simp only [show (t.sid == sid2) = true by simp [hb], if_true] at ha ⊢
      rw [hf t]
      exact hA t ht hb ha
    · simp only [show (t.sid == sid2) = false by simp [hb], Bool.false_eq_true, if_false]
        at ha ⊢
      exact hB t ht hb ha

/-- Every operation preserves the registry invariant. -/
theorem inv_step (st : SystemState) (op : Op) (h : Inv st) : Inv (step st op).1 := by
  cases op with
  | createSession sid2 chs maxP =>
    cases hf : findSession st sid2 with
    | some s0 => simpa [step, hf] using h
    | none =>
      obtain ⟨hn, hs⟩ := h
      simp only [step, hf]
      constructor
      · rw [List.map_append]
        simp only [List.map_cons, List.map_nil]
        refine hn.append (List.nodup_singleton _) ?_
        intro x hx hx2
        rw [List.mem_singleton] at hx2
        subst hx2
        rw [List.mem_map] at hx
        obtain ⟨t, ht, htsid⟩ := hx
        have := List.find?_eq_none.mp hf t ht
        simp only [beq_iff_eq] at this
        exact this htsid
      · intro s' hmem ha
        rw [List.mem_append] at hmem
        rcases hmem with hold | hnew
        · exact hs s' hold ha
        · rw [List.mem_singleton] at hnew
          subst hnew
          cases ha
  | activateSession sid2 now =>
    cases hf : findSession st sid2 with
    | none => simpa [step, hf] using h
    | some s0 =>
      by_cases hstat : s0.status ≠ .scheduled
      · simpa [step, hf, hstat] using h
      · cases hslot : st.registry.activeSlot with
        | some x => simpa [step, hf, hstat, hslot] using h
        | none =>
          obtain ⟨hn, hs⟩ := h
          simp only [step, hf, hstat, hslot, if_false, reduceCtorEq]
          refine inv_update_general st sid2 _ _ (fun s => rfl) hn ?_ ?_
          · intro t ht htsid hfa
            show some sid2 = some t.sid
            rw [htsid]
          · intro t ht htsid hta
            have := hs t ht hta
            rw [hslot] at this
            cases this
  | cancelSession sid2 =>
    cases hf : findSession st sid2 with
    | none => simpa [step, hf] using h
    | some s0 =>
      by_cases hstat : s0.status = .scheduled ∨ s0.status = .active
      · obtain ⟨hn, hs⟩ := h
        simp only [step, hf, hstat, if_true]
        refine inv_update_general st sid2 _ _ (fun s => rfl) hn ?_ ?_
        · intro t ht htsid hfa
          simp at hfa
        · intro t ht htsid hta
          have hts := hs t ht hta
          show (st.registry.release sid2).activeSlot = some t.sid
          unfold Registry.release
          rw [hts]
          simp [htsid, hts]
      · simpa [step, hf, hstat] using h
  | completeSession sid2 now =>
    cases hf : findSession st sid2 with
    | none => simpa [step, hf] using h
    | some s0 =>
      by_cases hstat : s0.status = .active ∧ (s0.allTerminal ∨ s0.timeBudgetExpired now)
      · obtain ⟨hn, hs⟩ := h
        simp only [step, hf, hstat, if_true]
        refine inv_update_general st sid2 _ _ (fun s => rfl) hn ?_ ?_
        · intro t ht htsid hfa
          simp at hfa
        · intro t ht htsid hta
          have hts := hs t ht hta
          show (st.registry.release sid2).activeSlot = some t.sid
          unfold Registry.release
          rw [hts]
          simp [htsid, hts]
      · simpa [step, hf, hstat] using h
  | joinSession sid2 uid2 now =>
    cases hf : findSession st sid2 with
    | none => simpa [step, hf] using h
    | some s0 =>
      by_cases hact : s0.status ≠ .active
      · simpa [step, hf, hact] using h
      · by_cases hcap : s0.maxParticipants ≤ s0.participants.length
        · simpa [step, hf, hact, hcap] using h
        · cases hjoined : s0.findParticipant uid2 with
          | some p0 => simpa [step, hf, hact, hcap, hjoined] using h
          | none =>
            simp only [step, hf, hact, hcap, hjoined, if_false, reduceCtorEq]
            exact inv_updateSession st sid2 _ (fun s1 => rfl) (fun s1 => rfl) h
  | submitAction sid2 uid2 a now =>
    cases hf : findSession st sid2 with
    | none => simpa [step, hf] using h
    | some s0 =>
      by_cases hact : s0.status ≠ .active
      · simpa [step, hf, hact] using h
      · cases hp0 : s0.findParticipant uid2 with
        | none => simpa [step, hf, hact, hp0] using h
        | some p0 =>
          simp only [step, hf, hact, hp0, if_false, reduceCtorEq]
          exact inv_updateSession st sid2 _ (fun s1 => rfl) (fun s1 => rfl) h
  | sweep now =>
    simp only [step]
    refine inv_map_sessions st _ ?_ ?_ h
    · intro s
      by_cases hb : s.status = .active <;> simp [hb]
    · intro s
      by_cases hb : s.status = .active <;> simp [hb]

/-- C2: the single-active-session invariant holds initially and is preserved
by every operation of the engine; under it, at most one session in the whole
registry is `active` at any time, before and after each step. -/
theorem single_active_invariant :
    Inv initState ∧
      ∀ st op, Inv st →
        st.activeCount ≤ 1 ∧ Inv (step st op).1 ∧ (step st op).1.activeCount ≤ 1 := by
  refine ⟨⟨List.nodup_nil, ?_⟩, ?_⟩
  · intro s hsm
    cases hsm
  · intro st op h
    exact ⟨inv_activeCount h, inv_step st op h, inv_activeCount (inv_step st op h)⟩

/-- Witness for C2: one concrete step (activating session 2 while session 1 is
active) preserves the invariant and the active-session bound. -/
theorem single_active_invariant_witness :
    SystemState.activeCount stW2 ≤ 1 ∧
      Inv (step stW2 (Op.activateSession 2 3)).1 ∧
      (step stW2 (Op.activateSession 2 3)).1.activeCount ≤ 1 :=
  single_active_invariant.2 stW2 (Op.activateSession 2 3) (by decide)

/-- Reduction of a successful activation step. -/
theorem step_activate_reduce (st : SystemState) (sid : SessionId) (now : Nat) (s : Session)
    (hf : findSession st sid = some s) (hsch : s.status = .scheduled)
    (hslot : st.registry.activeSlot = none) :
    step st (.activateSession sid now) =
      ({ st.updateSession sid (fun s0 => { s0 with status := .active, startTime := some now })
         with registry := { activeSlot := some sid } }, none) := by
  simp [step, hf, hsch, hslot]

/-- Reduction of a successful completion step. -/
theorem step_complete_reduce (st : SystemState) (sid : SessionId) (now1 : Nat) (s : Session)
    (hf : findSession st sid = some s)
    (hg : s.status = .active ∧ (s.allTerminal ∨ s.timeBudgetExpired now1)) :
    step st (.completeSession sid now1) =
      ({ st.updateSession sid (fun s0 => { s0 with status := .completed })
         with registry := st.registry.release sid }, none) := by
  simp only [step, hf]
  rw [if_pos hg]

/-- C6: while a session S1 is active, activating another, scheduled session S2
returns `AlreadyActive` and leaves the whole state (S2's `scheduled` status and
the registry included) unchanged; as soon as S1 completes, activating S2
succeeds and S2 becomes `active`. -/
theorem tryActivate_excludes (st : SystemState) (s1 s2 : SessionId)
    (sess1 sess2 : Session) (now : Nat)
    (hinv : Inv st)
    (h1 : findSession st s1 = some sess1) (h1a : sess1.status = .active)
    (h2 : findSession st s2 = some sess2) (h2s : sess2.status = .scheduled) :
    step st (.activateSession s2 now) = (st, some .AlreadyActive) ∧
      ∀ now1, (step st (.completeSession s1 now1)).2 = none →
        (step (step st (.completeSession s1 now1)).1 (.activateSession s2 now)).2 = none ∧
        sessionStatus (step (step st (.completeSession s1 now1)).1
          (.activateSession s2 now)).1 s2 = some .active := by
  have hslot : st.registry.activeSlot = some s1 := by
    have := hinv.2 sess1 (findSession_mem h1) h1a
    rw [findSession_sid h1] at this
    exact this
  have hne : s1 ≠ s2 := by
    intro he
    subst he
    rw [h1] at h2
    injection h2 with h2'
    rw [h2'] at h1a
    rw [h1a] at h2s
    cases h2s
  constructor
  · simp [step, h2, h2s, hslot]
  · intro now1 hc
    simp only [step, h1] at hc
    by_cases hg : sess1.status = .active ∧ (sess1.allTerminal ∨ sess1.timeBudgetExpired now1)
    · have hbeq2 : (sess2.sid == s1) = false := by
        rw [findSession_sid h2, beq_eq_false_iff_ne]
        exact fun he => hne he.symm
      have hred := step_complete_reduce st s1 now1 sess1 h1 hg
      have hf2 : findSession (step st (.completeSession s1 now1)).1 s2 = some sess2 := by
        rw [hred]
        show findSession (st.updateSession s1 (fun s0 => { s0 with status := .completed }))
          s2 = some sess2
        rw [findSession_updateSession st s1 s2
          (fun s0 => { s0 with status := .completed }) (fun s0 => rfl), h2]
        simp only [Option.map_some']
        simp only [hbeq2, Bool.false_eq_true, if_false]
      have hslot' : (step st (.completeSession s1 now1)).1.registry.activeSlot = none := by
        rw [hred]
        show (st.registry.release s1).activeSlot = none
        unfold Registry.release
        rw [hslot]
        simp
      have hact := step_activate_reduce (step st (.completeSession s1 now1)).1 s2 now
        sess2 hf2 h2s hslot'
      constructor
      · rw [hact]
      · unfold sessionStatus
        rw [hact]
        show (findSession ((step st (.completeSession s1 now1)).1.updateSession s2
          (fun s0 => { s0 with status := .active, startTime := some now })) s2).map
            Session.status = some .active
        rw [findSession_updateSession ((step st (.completeSession s1 now1)).1) s2 s2
          (fun s0 => { s0 with status := .active, startTime := some now })
          (fun s0 => rfl), hf2]
        simp [findSession_sid h2]
    · rw [if_neg hg] at hc
      simp at hc

/-- Witness for C6: in `stW2`, activating session 2 at time 3 is rejected
while session 1 is active, and succeeds right after completing session 1 at
time 200. -/
theorem tryActivate_excludes_witness :
    step stW2 (Op.activateSession 2 3) = (stW2, some CoreError.AlreadyActive) ∧
      (step (step stW2 (Op.completeSession 1 200)).1 (Op.activateSession 2 3)).2 = none ∧
      sessionStatus (step (step stW2 (Op.completeSession 1 200)).1
        (Op.activateSession 2 3)).1 2 = some SessionStatus.active :=
  ⟨(tryActivate_excludes stW2 1 2 sessW sessW2 3 (by decide) (by decide) (by decide)
      (by decide) (by decide)).1,
   (tryActivate_excludes stW2 1 2 sessW sessW2 3 (by decide) (by decide) (by decide)
      (by decide) (by decide)).2 200 (by decide)⟩

/-- C7: a tip requested strictly before its delay has elapsed is rejected with
`TipNotYetAvailable` and leaves the participant exactly as it was; requested
strictly after the delay it succeeds, the tip joins the participant's used-tip
multiset, its deduction lowers every score computed over that multiset, and a
subsequent successful submission records a completion scored over the tips
including it. -/
theorem tip_gating (s : Session) (p : Participant) (tipIdx now : Nat)
    (c : Challenge) (tp : Tip) (t0 : Nat)
    (hst : p.status = .active)
    (htime : p.cumTime now ≤ s.totalTimeLimit)
    (hc : s.challenges.get? p.currentChallengeIndex = some c)
    (ht0 : p.challengeStartedAt = some t0)
    (htp : c.tips.get? tipIdx = some tp) :
    (now - t0 < tp.availableAfterSeconds →
      recordAction s p (.requestTip p.currentChallengeIndex tipIdx) now =
        (p, some .TipNotYetAvailable)) ∧
      (tp.availableAfterSeconds < now - t0 →
        recordAction s p (.requestTip p.currentChallengeIndex tipIdx) now =
          ({ p with tipsTaken := p.tipsTaken ++ [tp] }, none) ∧
        (∀ x, computeScore c.basePoints (p.tipsTaken ++ [tp]) x =
          computeScore c.basePoints p.tipsTaken x - tp.pointsDeduction) ∧
        ∀ now1, p.cumTime now1 ≤ s.totalTimeLimit →
          ∀ q e, recordAction s { p with tipsTaken := p.tipsTaken ++ [tp] }
              (.submitSolution p.currentChallengeIndex true) now1 = (q, e) →
            e = none ∧
            q.completions = p.completions ++
              [{ challengeIndex := p.currentChallengeIndex, completedAt := now1,
                 score := computeScore c.basePoints (p.tipsTaken ++ [tp]) (now1 - t0),
                 timeSpent := now1 - t0, tipsUsed := (p.tipsTaken ++ [tp]).length,
                 attempts := p.attempts + 1 }]) := by
  rw [List.get?_eq_getElem?] at hc htp
  constructor
  · intro hlt
    unfold recordAction
    simp [hst, Nat.not_lt.mpr htime, hc, ht0, htp, hlt]
  · intro hgt
    have hnot : ¬ (now - t0 < tp.availableAfterSeconds) := by omega
    refine ⟨?_, ?_, ?_⟩
    · unfold recordAction
      simp [hst, Nat.not_lt.mpr htime, hc, ht0, htp, hnot]
    · intro x
      unfold computeScore
      rw [List.foldl_append]
      rfl
    · intro now1 htime1 q e hrec
      unfold recordAction at hrec
      have htime1' : p.timeSpent + (now1 - t0) ≤ s.totalTimeLimit := by
        unfold Participant.cumTime at htime1
        rw [ht0] at htime1
        exact htime1
      simp [hst, Participant.cumTime, Nat.not_lt.mpr htime1', hc, ht0] at hrec
      obtain ⟨hq, he⟩ := hrec
      constructor
      · exact he.symm
      · rw [← hq]
        simp

/-- Witness for C7: requesting `tipW` at 120 s is rejected, at 301 s it
succeeds and adds the tip. -/
theorem tip_gating_witness :
    recordAction sessW3 pW (PAction.requestTip pW.currentChallengeIndex 0) 120
        = (pW, some CoreError.TipNotYetAvailable) ∧
      recordAction sessW3 pW (PAction.requestTip pW.currentChallengeIndex 0) 301
        = ({ pW with tipsTaken := pW.tipsTaken ++ [tipW] }, none) :=
  ⟨(tip_gating sessW3 pW 0 120 chalW tipW 0 (by decide) (by decide) (by decide)
      (by decide) (by decide)).1 (by decide),
   ((tip_gating sessW3 pW 0 301 chalW tipW 0 (by decide) (by decide) (by decide)
      (by decide) (by decide)).2 (by decide)).1⟩

/-- Witness for C8 on the specification's two-participant tie scenario. -/
theorem leaderboard_spec_witness :
    (leaderboard [pB, pA]).Perm [pB, pA] ∧
      List.Sorted rankLE (leaderboard [pB, pA]) ∧
      leaderboard [pB, pA] = [pA, pB] :=
  ⟨(leaderboard_spec [pB, pA]).1, (leaderboard_spec [pB, pA]).2.1, by decide⟩

end LiveChallenge
